import Mathlib

/-!
Verification of the A/B experiment assignment module.

Shallow embedding of `lib/experiments` (the `experiments` registry,
`getVariant`, and `hashString`) from the portfolio-3d repository, together
with proofs about the specified assignment behaviour.

Modelling choices:
* JavaScript signed 32-bit truncation (`x & x`, `<<`) is modelled by
  `toInt32 : ℤ → ℤ`, reduction into `[-2^31, 2^31)`.
* JavaScript numbers appearing in weight arithmetic are modelled as `ℚ`;
  all quantities involved are small decimal literals for which the
  comparisons made by the code have the same outcome as for IEEE doubles.
* `str.charCodeAt(i)` is modelled by `Char.toNat` on `String.data`
  (identical to UTF-16 code units for the Basic Multilingual Plane, which
  covers all identifiers occurring in the registry).
* `Math.random()` is an input parameter `random : ℚ` of the embedding,
  so one `getVariant` call is a pure function of
  (experimentId, userId, random draw).
* The source reads the module-level `experiments` object; the embedding
  `getVariantIn` abstracts the registry as a parameter and `getVariant`
  instantiates it with the hard-coded `experiments`, which lets theorems
  also speak about modified registries where a claim requires it.
-/

namespace Portfolio

/-- Embeds the `VariantConfig` interface: id, display name, weight. -/
structure VariantConfig where
  id : String
  name : String
  weight : ℚ
deriving DecidableEq, Repr

/-- Embeds the `Experiment` interface: display name and ordered variants. -/
structure Experiment where
  name : String
  variants : List VariantConfig
deriving DecidableEq, Repr

/-- The `heroCTA` entry of the hard-coded `experiments` record. -/
def heroCTA : Experiment :=
  { name := "Hero CTA Button Text"
    variants :=
      [ { id := "control", name := "View Projects", weight := 34/100 }
      , { id := "variant-a", name := "See My Work", weight := 33/100 }
      , { id := "variant-b", name := "Explore Portfolio", weight := 33/100 } ] }

/-- The `colorScheme` entry of the hard-coded `experiments` record. -/
def colorScheme : Experiment :=
  { name := "Primary Color Scheme"
    variants :=
      [ { id := "control", name := "Blue/Purple", weight := 1/2 }
      , { id := "variant-a", name := "Green/Blue", weight := 1/2 } ] }

/-- The `projectLayout` entry of the hard-coded `experiments` record. -/
def projectLayout : Experiment :=
  { name := "Project Card Layout"
    variants :=
      [ { id := "control", name := "Grid Layout", weight := 1/2 }
      , { id := "variant-a", name := "List Layout", weight := 1/2 } ] }

/-- The hard-coded `experiments : Record<string, Experiment>` object,
as the lookup function `experiments[experimentId]`. -/
def experiments : String → Option Experiment := fun id =>
  if id = "heroCTA" then some heroCTA
  else if id = "colorScheme" then some colorScheme
  else if id = "projectLayout" then some projectLayout
  else none

/-- JavaScript `ToInt32`: reduce an integer into `[-2^31, 2^31)`,
congruent mod `2^32`.  This is what `hash & hash` performs, and (composed
with multiplication by 32) what `hash << 5` performs on an int32 value. -/
def toInt32 (n : ℤ) : ℤ := (n + 2147483648) % 4294967296 - 2147483648

/-- One iteration of the loop body of `hashString`:
`hash = ((hash << 5) - hash) + char; hash = hash & hash;`.
For int32-valued `hash`, `hash << 5` is `toInt32 (hash * 32)`; the outer
subtraction and addition are exact in double precision (magnitudes below
`2^37`), and the closing `hash & hash` is the outer `toInt32`. -/
def hashStep (hash : ℤ) (char : ℤ) : ℤ :=
  toInt32 (toInt32 (hash * 32) - hash + char)

/-- Embeds `hashString`: fold the loop body over the char codes starting
from 0, then `Math.abs`. -/
def hashString (str : String) : ℕ :=
  (str.data.foldl (fun hash c => hashStep hash (Char.toNat c)) 0).natAbs

/-- One step of the reference polynomial rolling hash, following the
spec's words: `hash = (hash*31 + codepoint(c))` truncated to a signed
32-bit integer. Used only as the comparison point of the refinement
claim about `hashString`. -/
def specHashStep (hash : ℤ) (char : ℤ) : ℤ :=
  toInt32 (hash * 31 + char)

/-- The reference polynomial rolling hash of the spec: start at 0, apply
`specHashStep` for each character, take the absolute value at the end. -/
def specRollingHash (str : String) : ℕ :=
  (str.data.foldl (fun hash c => specHashStep hash (Char.toNat c)) 0).natAbs

/-- `Number.MAX_SAFE_INTEGER = 2^53 - 1`, the code's normalization
constant. -/
def maxSafeInteger : ℚ := 9007199254740991

/-- `hash / Number.MAX_SAFE_INTEGER` for the hash of string `s`. -/
def normalizedHash (s : String) : ℚ := (hashString s : ℚ) / maxSafeInteger

/-- The cumulative-weight walk shared by both loops of `getVariant`:
accumulate weights in declared order and return the first variant whose
cumulative weight is `≥` the comparison value `x`; `none` models falling
off the end of the loop. -/
def bucketWalk (x : ℚ) : List VariantConfig → ℚ → Option String
  | [], _ => none
  | variant :: rest, cumulativeWeight =>
    if x ≤ cumulativeWeight + variant.weight then some variant.id
    else bucketWalk x rest (cumulativeWeight + variant.weight)

/-- The `if (userId)` section of `getVariant`: when a non-empty user id is
present, walk with the normalized hash of `userId + experimentId`;
`none` when the guard is falsy or the walk falls through (in the source,
control then reaches the random-selection section). -/
def userDraw (experiment : Experiment) (experimentId : String)
    (userId : Option String) : Option String :=
  match userId with
  | none => none
  | some u =>
    if u = "" then none
    else bucketWalk (normalizedHash (u ++ experimentId)) experiment.variants 0

/-- The random-selection section of `getVariant`: walk with the random
draw, and the trailing `return 'control'` when that walk falls through. -/
def randomPick (experiment : Experiment) (random : ℚ) : String :=
  (bucketWalk random experiment.variants 0).getD "control"

/-- Embeds `getVariant`, abstracted over the registry it reads. -/
def getVariantIn (registry : String → Option Experiment)
    (experimentId : String) (userId : Option String) (random : ℚ) : String :=
  match registry experimentId with
  | none => "control"
  | some experiment =>
    (userDraw experiment experimentId userId).getD (randomPick experiment random)

/-- Embeds `getVariant` as exported: reads the module-level
`experiments` registry. -/
def getVariant (experimentId : String) (userId : Option String)
    (random : ℚ) : String :=
  getVariantIn experiments experimentId userId random

/-! ## Basic lemmas about the int32 arithmetic -/

theorem toInt32_lb (n : ℤ) : -2147483648 ≤ toInt32 n := by
  unfold toInt32; omega

theorem toInt32_ub (n : ℤ) : toInt32 n < 2147483648 := by
  unfold toInt32; omega

theorem hashStep_eq_specHashStep (h c : ℤ) : hashStep h c = specHashStep h c := by
  unfold hashStep specHashStep toInt32; omega

/-- The two hash functions agree on every string: the code's
`((hash << 5) - hash) + char` formulation computes the spec's
`hash*31 + char` rolling hash. -/
theorem hashString_eq_specRollingHash (s : String) :
    hashString s = specRollingHash s := by
  unfold hashString specRollingHash
  simp only [hashStep_eq_specHashStep]

theorem foldl_hashStep_bounds (l : List Char) (h : ℤ)
    (hlb : -2147483648 ≤ h) (hub : h < 2147483648) :
    -2147483648 ≤ l.foldl (fun hash c => hashStep hash (Char.toNat c)) h ∧
      l.foldl (fun hash c => hashStep hash (Char.toNat c)) h < 2147483648 := by
  induction l generalizing h with
  | nil => exact ⟨hlb, hub⟩
  | cons c rest ih =>
    exact ih _ (toInt32_lb _) (toInt32_ub _)

/-- The hash value is at most `2^31` (so at most about `2.4e-7` of the
normalization constant `2^53 - 1`). -/
theorem hashString_le (s : String) : hashString s ≤ 2147483648 := by
  unfold hashString
  have h := foldl_hashStep_bounds s.data 0 (by norm_num) (by norm_num)
  omega

theorem normalizedHash_le (s : String) : normalizedHash s ≤ 1/100 := by
  have h : (hashString s : ℚ) ≤ 2147483648 := by
    exact_mod_cast hashString_le s
  unfold normalizedHash maxSafeInteger
  rw [div_le_iff₀ (by norm_num)]
  linarith

/-! ## Lemmas about the cumulative-weight walk and `getVariant` -/

theorem bucketWalk_mem (x : ℚ) :
    ∀ (l : List VariantConfig) (c : ℚ) (v : String),
      bucketWalk x l c = some v → v ∈ l.map VariantConfig.id := by
  intro l
  induction l with
  | nil => intro c v h; simp [bucketWalk] at h
  | cons variant rest ih =>
    intro c v h
    rw [bucketWalk] at h
    split at h
    · simp at h
      simp [h]
    · simpa using Or.inr (ih _ v h)

theorem bucketWalk_first (x : ℚ) (v : VariantConfig) (rest : List VariantConfig)
    (c : ℚ) (h : x ≤ c + v.weight) :
    bucketWalk x (v :: rest) c = some v.id := by
  rw [bucketWalk, if_pos h]

theorem userDraw_mem (experiment : Experiment) (experimentId : String)
    (userId : Option String) (v : String)
    (h : userDraw experiment experimentId userId = some v) :
    v ∈ experiment.variants.map VariantConfig.id := by
  unfold userDraw at h
  match userId with
  | none => simp at h
  | some u =>
    simp only at h
    split at h
    · simp at h
    · exact bucketWalk_mem _ _ _ _ h

/-- Every call returns either the literal `"control"` or the id of one of
the declared variants of the experiment the registry resolves. -/
theorem getVariantIn_mem (registry : String → Option Experiment)
    (experimentId : String) (userId : Option String) (random : ℚ) :
    getVariantIn registry experimentId userId random = "control" ∨
      ∃ experiment, registry experimentId = some experiment ∧
        getVariantIn registry experimentId userId random ∈
          experiment.variants.map VariantConfig.id := by
  unfold getVariantIn
  rcases hreg : registry experimentId with _ | experiment
  · exact Or.inl rfl
  · rcases hu : userDraw experiment experimentId userId with _ | v
    · rcases hw : bucketWalk random experiment.variants 0 with _ | w
      · exact Or.inl (by simp [hu, randomPick, hw])
      · exact Or.inr ⟨experiment, rfl,
          by simpa [hu, randomPick, hw] using bucketWalk_mem _ _ _ _ hw⟩
    · exact Or.inr ⟨experiment, rfl,
        by simpa [hu] using userDraw_mem _ _ _ _ hu⟩

/-- When the user id is non-empty and the first declared variant weighs at
least `1/100`, the hash path always returns the first variant: the
normalized hash never exceeds `2^31 / (2^53 - 1) < 1/100`. -/
theorem getVariantIn_user_first (registry : String → Option Experiment)
    (experimentId : String) (experiment : Experiment) (u : String) (r : ℚ)
    (v : VariantConfig) (rest : List VariantConfig)
    (hreg : registry experimentId = some experiment) (hu : u ≠ "")
    (hv : experiment.variants = v :: rest) (hw : (1:ℚ)/100 ≤ v.weight) :
    getVariantIn registry experimentId (some u) r = v.id := by
  have hnh : normalizedHash (u ++ experimentId) ≤ 1/100 := normalizedHash_le _
  have hwalk : bucketWalk (normalizedHash (u ++ experimentId))
      experiment.variants 0 = some v.id := by
    rw [hv]
    exact bucketWalk_first _ _ _ _ (by linarith)
  unfold getVariantIn
  rw [hreg]
  simp only [userDraw, if_neg hu, hwalk, Option.getD_some]

/-- Enumeration of the hard-coded registry. -/
theorem experiments_cases (experimentId : String) (experiment : Experiment)
    (h : experiments experimentId = some experiment) :
    (experimentId = "heroCTA" ∧ experiment = heroCTA) ∨
    (experimentId = "colorScheme" ∧ experiment = colorScheme) ∨
    (experimentId = "projectLayout" ∧ experiment = projectLayout) := by
  unfold experiments at h
  split_ifs at h <;> simp_all

/-! ## The claims -/

/-- C1: for every experiment id present in the registry and every
non-empty user id, two calls of `getVariant` (with arbitrary, possibly
different, random draws) return the same variant id: the result is a
deterministic function of `(experimentId, userId)`. -/
theorem c1_determinism (experimentId : String) (experiment : Experiment)
    (u : String) (hreg : experiments experimentId = some experiment)
    (hu : u ≠ "") (r₁ r₂ : ℚ) :
    getVariant experimentId (some u) r₁ = getVariant experimentId (some u) r₂ := by
  rcases experiments_cases experimentId experiment hreg with
    ⟨he, hx⟩ | ⟨he, hx⟩ | ⟨he, hx⟩ <;> subst hx <;>
  rw [show getVariant experimentId (some u) r₁ =
        getVariantIn experiments experimentId (some u) r₁ from rfl,
      show getVariant experimentId (some u) r₂ =
        getVariantIn experiments experimentId (some u) r₂ from rfl,
      getVariantIn_user_first experiments experimentId _ u r₁ _ _ hreg hu rfl
        (by norm_num),
      getVariantIn_user_first experiments experimentId _ u r₂ _ _ hreg hu rfl
        (by norm_num)]

/-- C1 witness: concrete instantiation at `("heroCTA", "user_42")` with
two different random draws. -/
theorem c1_determinism_witness :
    experiments "heroCTA" = some heroCTA ∧ "user_42" ≠ "" ∧
      getVariant "heroCTA" (some "user_42") 0 =
        getVariant "heroCTA" (some "user_42") (7/10) :=
  ⟨rfl, by decide, c1_determinism "heroCTA" heroCTA "user_42" rfl (by decide) 0 (7/10)⟩

/-- C2: the claimed distribution fidelity fails in the code: no non-empty
user id is ever assigned `"variant-a"` of `heroCTA` (configured weight
0.33), so the empirical fraction of any sample landing there is 0, far
outside 0.33 ± 0.015.  Cause: the hash (at most `2^31`) is normalized by
`Number.MAX_SAFE_INTEGER = 2^53 - 1`, so the comparison value never
exceeds about `2.4e-7` and the walk always stops at the first variant. -/
theorem c2_heroCTA_never_variant_a (u : String) (hu : u ≠ "") (r : ℚ) :
    getVariant "heroCTA" (some u) r ≠ "variant-a" := by
  rw [show getVariant "heroCTA" (some u) r =
        getVariantIn experiments "heroCTA" (some u) r from rfl,
      getVariantIn_user_first experiments "heroCTA" heroCTA u r _ _ rfl hu rfl
        (by norm_num)]
  decide

/-- C2 witness: concrete user id never assigned to `variant-a`. -/
theorem c2_heroCTA_never_variant_a_witness :
    "user_42" ≠ "" ∧ getVariant "heroCTA" (some "user_42") 0 ≠ "variant-a" :=
  ⟨by decide, c2_heroCTA_never_variant_a "user_42" (by decide) 0⟩

/-- C3: `hashString` is bounded by `2^31`, and for every experiment in the
hard-coded registry and every non-empty user id, `getVariant` returns the
id of the first declared variant, whatever the random draw. -/
theorem c3_first_variant :
    (∀ s : String, hashString s ≤ 2 ^ 31) ∧
    ∀ (experimentId : String) (experiment : Experiment) (u : String) (r : ℚ),
      experiments experimentId = some experiment → u ≠ "" →
      ∃ v, experiment.variants.head? = some v ∧
        getVariant experimentId (some u) r = v.id := by
  constructor
  · intro s
    exact hashString_le s
  · intro experimentId experiment u r hreg hu
    rcases experiments_cases experimentId experiment hreg with
      ⟨he, hx⟩ | ⟨he, hx⟩ | ⟨he, hx⟩ <;> subst hx <;>
    exact ⟨_, rfl,
      getVariantIn_user_first experiments experimentId _ u r _ _ hreg hu rfl
        (by norm_num)⟩

/-- C3 witness: `heroCTA` with user `user_42` resolves to the first
declared variant, `control`. -/
theorem c3_first_variant_witness :
    experiments "heroCTA" = some heroCTA ∧ "user_42" ≠ "" ∧
      getVariant "heroCTA" (some "user_42") 0 = "control" := by
  refine ⟨rfl, by decide, ?_⟩
  obtain ⟨v, hv, hres⟩ :=
    c3_first_variant.2 "heroCTA" heroCTA "user_42" 0 rfl (by decide)
  have hv2 : ({ id := "control", name := "View Projects", weight := 34/100 } : VariantConfig) = v := by
    simpa [heroCTA] using hv
  rw [hres, ← hv2]

/-- C4: for every experiment id that is not in the registry and every user
id (present or absent), `getVariant` returns the literal `"control"`. -/
theorem c4_unknown_experiment (experimentId : String)
    (h : experiments experimentId = none) (userId : Option String) (r : ℚ) :
    getVariant experimentId userId r = "control" := by
  unfold getVariant getVariantIn
  rw [h]

/-- C4 witness: the spec's own example, `assign("does-not-exist", "user123")`. -/
theorem c4_unknown_experiment_witness :
    experiments "does-not-exist" = none ∧
      getVariant "does-not-exist" (some "user123") 0 = "control" :=
  ⟨rfl, c4_unknown_experiment "does-not-exist" rfl (some "user123") 0⟩

/-- C5: the hash value used for bucketing — `hashString` applied to the
concatenation `userId ++ experimentId` — equals the reference polynomial
rolling hash of the spec on the same string: `hash*31 + codepoint`
truncated to a signed 32-bit integer at each step, absolute value taken
at the end. -/
theorem c5_hash_refinement (u e : String) :
    hashString (u ++ e) = specRollingHash (u ++ e) :=
  hashString_eq_specRollingHash (u ++ e)

/-- An experiment on which the cumulative-weight walk genuinely falls
through for a non-empty user id: its single (hence also last) variant has
weight 0, below every positive comparison value. -/
def fallthroughExperiment : Experiment :=
  { name := "Fallthrough", variants := [{ id := "variant-last", name := "Last", weight := 0 }] }

/-- Registry holding only `fallthroughExperiment`, under id `"exp"`. -/
def fallthroughRegistry : String → Option Experiment := fun id =>
  if id = "exp" then some fallthroughExperiment else none

theorem bucketWalk_single_zero (x : ℚ) (v : VariantConfig)
    (hw : v.weight = 0) (hx : 0 < x) : bucketWalk x [v] 0 = none := by
  simp only [bucketWalk, hw]
  rw [if_neg (by linarith)]

theorem normalizedHash_u_exp_pos : 0 < normalizedHash ("u" ++ "exp") := by
  have hh : hashString ("u" ++ "exp") = 3586440 := by decide
  unfold normalizedHash maxSafeInteger
  rw [hh]
  norm_num

/-- When both walks fall through, the call returns the literal
`"control"`: the user-id section drops into the random-selection section,
whose own fallthrough executes the trailing `return 'control'`. -/
theorem getVariantIn_double_fallthrough (registry : String → Option Experiment)
    (experimentId : String) (experiment : Experiment) (u : String) (r : ℚ)
    (hreg : registry experimentId = some experiment)
    (huser : bucketWalk (normalizedHash (u ++ experimentId))
      experiment.variants 0 = none)
    (hrand : bucketWalk r experiment.variants 0 = none) :
    getVariantIn registry experimentId (some u) r = "control" := by
  unfold getVariantIn
  rw [hreg]
  unfold userDraw
  by_cases hu : u = ""
  · simp [hu, randomPick, hrand]
  · simp [hu, huser, randomPick, hrand]

/-- C6 counterexample: with both walks falling through (hash walk and
random walk), `getVariant` returns `"control"`, not the id of the last
declared variant `"variant-last"`. -/
theorem c6_counterexample :
    fallthroughExperiment.variants.getLast? =
      some { id := "variant-last", name := "Last", weight := 0 } ∧
    bucketWalk (normalizedHash ("u" ++ "exp")) fallthroughExperiment.variants 0 = none ∧
    bucketWalk (1/2 : ℚ) fallthroughExperiment.variants 0 = none ∧
    getVariantIn fallthroughRegistry "exp" (some "u") (1/2) = "control" ∧
    ("control" : String) ≠ "variant-last" := by
  have huser : bucketWalk (normalizedHash ("u" ++ "exp"))
      fallthroughExperiment.variants 0 = none :=
    bucketWalk_single_zero _ _ rfl normalizedHash_u_exp_pos
  have hrand : bucketWalk (1/2 : ℚ) fallthroughExperiment.variants 0 = none :=
    bucketWalk_single_zero _ _ rfl (by norm_num)
  exact ⟨rfl, huser, hrand,
    getVariantIn_double_fallthrough fallthroughRegistry "exp"
      fallthroughExperiment "u" (1/2) rfl huser hrand,
    by decide⟩

/-- C6 amended: when the hash walk falls through, execution reaches the
random-selection walk, and when that also falls through the call returns
the literal `"control"` — never the last variant. -/
theorem c6_fallthrough_to_control (registry : String → Option Experiment)
    (experimentId : String) (experiment : Experiment) (u : String) (r : ℚ)
    (hreg : registry experimentId = some experiment)
    (huser : bucketWalk (normalizedHash (u ++ experimentId))
      experiment.variants 0 = none)
    (hrand : bucketWalk r experiment.variants 0 = none) :
    getVariantIn registry experimentId (some u) r = "control" :=
  getVariantIn_double_fallthrough registry experimentId experiment u r hreg huser hrand

/-- C6 amended witness: concrete fallthrough instance. -/
theorem c6_fallthrough_to_control_witness :
    fallthroughRegistry "exp" = some fallthroughExperiment ∧
    getVariantIn fallthroughRegistry "exp" (some "u") (1/2) = "control" :=
  ⟨rfl,
    c6_fallthrough_to_control fallthroughRegistry "exp" fallthroughExperiment
      "u" (1/2) rfl
      (bucketWalk_single_zero _ _ rfl normalizedHash_u_exp_pos)
      (bucketWalk_single_zero _ _ rfl (by norm_num))⟩

/-- An experiment whose weights sum to 0.9, violating the claimed
weight-sum invariant. -/
def badWeightExperiment : Experiment :=
  { name := "Bad Weights"
    variants :=
      [ { id := "control", name := "A", weight := 1/2 }
      , { id := "variant-a", name := "B", weight := 2/5 } ] }

/-- An experiment with an empty variant list, violating the claimed
non-emptiness invariant. -/
def emptyExperiment : Experiment := { name := "Empty", variants := [] }

/-- Registry holding the two invalid experiments. -/
def invalidRegistry : String → Option Experiment := fun id =>
  if id = "badExp" then some badWeightExperiment
  else if id = "emptyExp" then some emptyExperiment
  else none

/-- C7 counterexample: a registry whose weights sum to 0.9 (and one whose
variant list is empty) is a plain value — nothing in the code validates
it, so no configuration error is ever raised before (or during) a
`getVariant` call: the call on the invalid registry simply succeeds. -/
theorem c7_counterexample :
    badWeightExperiment.variants.map VariantConfig.weight = [1/2, 2/5] ∧
    ((1:ℚ)/2 + 2/5 ≠ 1) ∧
    getVariantIn invalidRegistry "badExp" (some "user123") 0 = "control" ∧
    emptyExperiment.variants = [] ∧
    getVariantIn invalidRegistry "emptyExp" (some "user123") (1/2) = "control" := by
  refine ⟨rfl, by norm_num, ?_, rfl, ?_⟩
  · exact getVariantIn_user_first invalidRegistry "badExp" badWeightExperiment
      "user123" 0 _ _ rfl (by decide) rfl (by norm_num)
  · exact getVariantIn_double_fallthrough invalidRegistry "emptyExp"
      emptyExperiment "user123" (1/2) rfl rfl rfl

/-- C7 amended: the code performs no construction- or load-time
validation at all — every registry value, however invalid (weights not
summing to 1, empty variant lists), is accepted as-is, and every
`getVariant` call against it returns normally: either the literal
`"control"` or a declared variant id.  Weights are used unrenormalized
by the walk. -/
theorem c7_no_validation (registry : String → Option Experiment)
    (experimentId : String) (userId : Option String) (r : ℚ) :
    getVariantIn registry experimentId userId r = "control" ∨
      ∃ experiment, registry experimentId = some experiment ∧
        getVariantIn registry experimentId userId r ∈
          experiment.variants.map VariantConfig.id :=
  getVariantIn_mem registry experimentId userId r

/-- The `colorScheme` experiment with its two equal-weight variants
declared in the opposite order. -/
def colorSchemeSwapped : Experiment :=
  { name := "Primary Color Scheme"
    variants :=
      [ { id := "variant-a", name := "Green/Blue", weight := 1/2 }
      , { id := "control", name := "Blue/Purple", weight := 1/2 } ] }

/-- The hard-coded registry with `colorScheme`'s variants swapped. -/
def experimentsSwapped : String → Option Experiment := fun id =>
  if id = "heroCTA" then some heroCTA
  else if id = "colorScheme" then some colorSchemeSwapped
  else if id = "projectLayout" then some projectLayout
  else none

/-- C8: swapping the declared order of `colorScheme`'s two variants
(same ids, same weights, exchanged positions) changes the variant that
user `user123` resolves to — the cumulative-weight walk is
order-dependent. -/
theorem c8_order_sensitivity :
    colorSchemeSwapped.variants.map VariantConfig.id =
      (colorScheme.variants.map VariantConfig.id).reverse ∧
    colorSchemeSwapped.variants.map VariantConfig.weight =
      colorScheme.variants.map VariantConfig.weight ∧
    getVariant "colorScheme" (some "user123") 0 = "control" ∧
    getVariantIn experimentsSwapped "colorScheme" (some "user123") 0 = "variant-a" ∧
    ("control" : String) ≠ "variant-a" := by
  refine ⟨rfl, rfl, ?_, ?_, by decide⟩
  · exact getVariantIn_user_first experiments "colorScheme" colorScheme
      "user123" 0 _ _ rfl (by decide) rfl (by norm_num)
  · exact getVariantIn_user_first experimentsSwapped "colorScheme"
      colorSchemeSwapped "user123" 0 _ _ rfl (by decide) rfl (by norm_num)

/-- C9: `getVariant` is total toward the caller: for every experiment id,
every optional user id and every random draw it returns one of finitely
many strings (and in particular never fails). -/
theorem c9_total (experimentId : String) (userId : Option String) (r : ℚ) :
    getVariant experimentId userId r ∈
      (["control", "variant-a", "variant-b"] : List String) := by
  show getVariantIn experiments experimentId userId r ∈ _
  rcases getVariantIn_mem experiments experimentId userId r with h | ⟨exp, hreg, hmem⟩
  · rw [h]; decide
  · rcases experiments_cases _ _ hreg with ⟨he, hx⟩ | ⟨he, hx⟩ | ⟨he, hx⟩ <;> subst hx <;>
      simp only [heroCTA, colorScheme, projectLayout, List.map_cons, List.map_nil,
        List.mem_cons, List.not_mem_nil, or_false] at hmem <;>
      simp only [List.mem_cons, List.not_mem_nil, or_false] <;> tauto

/-- C10: whenever the experiment id resolves in the registry, the
returned string is the id of one of that experiment's declared variants
(every hard-coded experiment declares a `"control"` variant, so the
`"control"` branches stay inside the set as well). -/
theorem c10_result_in_variants (experimentId : String) (experiment : Experiment)
    (hreg : experiments experimentId = some experiment)
    (userId : Option String) (r : ℚ) :
    getVariant experimentId userId r ∈ experiment.variants.map VariantConfig.id := by
  rcases getVariantIn_mem experiments experimentId userId r with h | ⟨exp, hreg2, hmem⟩
  · rcases experiments_cases _ _ hreg with ⟨he, hx⟩ | ⟨he, hx⟩ | ⟨he, hx⟩ <;> subst hx <;>
      (show getVariantIn experiments experimentId userId r ∈ _; rw [h]; decide)
  · rw [hreg] at hreg2
    have hexp : exp = experiment := (Option.some.inj hreg2).symm
    subst hexp
    exact hmem

/-- C10 witness: concrete call on `heroCTA` lands among its declared
variant ids. -/
theorem c10_result_in_variants_witness :
    experiments "heroCTA" = some heroCTA ∧
      getVariant "heroCTA" (some "alice") 0 ∈
        heroCTA.variants.map VariantConfig.id :=
  ⟨rfl, c10_result_in_variants "heroCTA" heroCTA rfl (some "alice") 0⟩

end Portfolio
